import Mathlib

/-!
# Grocerz — shallow embedding of `src/app.py`

This file embeds the core logic of the Grocerz Flask application:
the inventory loader (`load_products`), the availability label
(`stock_label`), the products search/filter route (`products`), and the
session shopping-list operations (`add_to_list`, `update_shopping_list`,
`remove_from_list`, `clear_list`, `shopping_list`).

Modelling conventions:
* A spreadsheet cell (`RawCell`) is either missing (pandas `NaN`),
  a text string, or a number (modelled as `Rat`).
* A raw table is column-oriented, as a pandas `DataFrame` is:
  a list of `(column name, cells)` pairs.
* Python `int(...)` on a string is `parsePyInt` (strip, optional sign,
  decimal digits); `pd.to_numeric(..., errors := coerce)` on a cell is
  `to_numeric`, with `parseNumeric` for decimal literals.
* The per-session shopping list (a Python `dict` from sku to qty) is an
  association list `Cart` with Python dict semantics: lookup finds the
  first matching key, assignment updates in place or appends.
* `flash(...)` messages are returned as explicit `String` results.
* pandas `Series.str.contains` interprets its argument as a regular
  expression (`re.search`).  `reSearch` embeds `re.search` on the
  fragment of patterns actually built out of literal characters and the
  metacharacter `.` (dot matches any character); other metacharacters do
  not occur in the properties below.
-/

/-- Python `str.strip()`: drop leading and trailing whitespace
characters (list-based so that proofs and the kernel can evaluate it). -/
def pyStrip (s : String) : String :=
  String.mk (((s.toList.dropWhile Char.isWhitespace).reverse.dropWhile Char.isWhitespace).reverse)

/-- Python `str.lower()` (ASCII model). -/
def pyLower (s : String) : String :=
  String.mk (s.toList.map Char.toLower)

/-- A raw spreadsheet cell: missing (pandas `NaN`), text, or a number. -/
inductive RawCell where
  | missing
  | str (s : String)
  | num (q : Rat)
deriving DecidableEq, Repr

/-- A raw table, column-oriented like a pandas `DataFrame`:
`(column name, cells of that column)` pairs. -/
abbrev RawTable := List (String × List RawCell)

/-- Number of rows of a raw table (length of its first column;
columns of a `DataFrame` all have the same length). -/
def nRows (t : RawTable) : Nat :=
  match t with
  | [] => 0
  | c :: _ => c.2.length

/-- `df[c]` when the column may be absent: the column if present, else a
column of `d` broadcast over every row (pandas scalar assignment
`df[c] = d`). -/
def getColD (t : RawTable) (c : String) (d : RawCell) : List RawCell :=
  match t.lookup c with
  | some col => col
  | none => List.replicate (nRows t) d

/-- Value of a run of decimal digit characters. -/
def digitsVal (l : List Char) : Nat :=
  l.foldl (fun a c => a * 10 + (c.toNat - 48)) 0

/-- Python `int(s)` on a string: strip surrounding whitespace, optional
sign, then at least one decimal digit; anything else raises (here:
`none`). -/
def parsePyInt (s : String) : Option Int :=
  let l := (pyStrip s).toList
  match l with
  | [] => none
  | c :: rest =>
    if c = '-' then
      if rest ≠ [] ∧ rest.all Char.isDigit then some (-(digitsVal rest : Int)) else none
    else if c = '+' then
      if rest ≠ [] ∧ rest.all Char.isDigit then some (digitsVal rest : Int) else none
    else
      if l.all Char.isDigit then some (digitsVal l : Int) else none

/-- Decimal-literal parsing used by `pd.to_numeric`: strip, optional
sign, digits with an optional fractional part (at least one digit in
total); anything else is non-numeric (`none`). -/
def parseNumeric (s : String) : Option Rat :=
  let l := (pyStrip s).toList
  match l with
  | [] => none
  | c :: rest =>
    let (sgn, body) : Int × List Char :=
      if c = '-' then (-1, rest) else if c = '+' then (1, rest) else (1, l)
    match body.splitOn '.' with
    | [ip] =>
      if ip ≠ [] ∧ ip.all Char.isDigit then some (sgn * (digitsVal ip : Int) : Rat) else none
    | [ip, fp] =>
      if (ip ≠ [] ∨ fp ≠ []) ∧ ip.all Char.isDigit ∧ fp.all Char.isDigit then
        some ((sgn : Rat) * ((digitsVal ip : Rat) + (digitsVal fp : Rat) / ((10 : Rat) ^ fp.length)))
      else none
    | _ => none

/-- `pd.to_numeric(cell, errors := coerce)`: a missing cell stays
missing (`NaN`, here `none`), a number passes through, a string is
parsed as a decimal literal, unparsable strings coerce to `NaN`. -/
def to_numeric (c : RawCell) : Option Rat :=
  match c with
  | .missing => none
  | .num q => some q
  | .str s => parseNumeric s

/-- `Series.astype(str)` on one cell: pandas renders a missing value
(`NaN`) as the string `nan`; a string stays itself; a number is
rendered textually. -/
def astypeStr (c : RawCell) : String :=
  match c with
  | .missing => "nan"
  | .str s => s
  | .num q => toString q

/-- `Series.fillna` on a column of strings produced by `astype(str)`:
after `astype(str)` no cell is `NaN` any more, so there is nothing to
fill and the column is unchanged. -/
def fillnaStr (col : List String) : List String :=
  col

/-- The cleaned text column `df[c].astype(str).fillna(empty).str.strip()`
for a required text column `c` (synthesized as all-empty when absent,
mirroring `df[c] = ""`). -/
def textColumn (t : RawTable) (c : String) : List String :=
  (fillnaStr ((getColD t c (.str "")).map astypeStr)).map pyStrip

/-- Numpy truncation toward zero, as in `.astype(int)`. -/
def ratTrunc (q : Rat) : Int :=
  q.num.tdiv (q.den : Int)

/-- The coerced price column:
`pd.to_numeric(df[price], errors := coerce).fillna(0.0)`
(column synthesized as `0.0` when absent). -/
def priceColumn (t : RawTable) : List Rat :=
  (getColD t "price" (.num 0)).map (fun c => (to_numeric c).getD 0)

/-- The coerced stock column:
`pd.to_numeric(df[stock_qty], errors := coerce).fillna(0).astype(int)`
(column synthesized as `0` when absent). -/
def stockColumn (t : RawTable) : List Int :=
  (getColD t "stock_qty" (.num 0)).map (fun c => ratTrunc ((to_numeric c).getD 0))

/-- A normalized product row, as produced by `load_products`. -/
structure Product where
  sku : String
  name : String
  brand : String
  size : String
  color : String
  ingredient_tags : String
  aisle : String
  price : Rat
  stock_qty : Int
deriving DecidableEq, Repr

/-- Row `i` of the normalized table. -/
def loadRow (t : RawTable) (i : Nat) : Product :=
  { sku := (textColumn t "sku").getD i ""
    name := (textColumn t "name").getD i ""
    brand := (textColumn t "brand").getD i ""
    size := (textColumn t "size").getD i ""
    color := (textColumn t "color").getD i ""
    ingredient_tags := (textColumn t "ingredient_tags").getD i ""
    aisle := (textColumn t "aisle").getD i ""
    price := (priceColumn t).getD i 0
    stock_qty := (stockColumn t).getD i 0 }

/-- `load_products()`: read the raw table and normalize it — ensure the
seven text columns exist and clean them, coerce `price` and
`stock_qty`.  Returns the rows in order. -/
def load_products (t : RawTable) : List Product :=
  (List.range (nRows t)).map (loadRow t)

/-- A dynamically typed Python value passed to `stock_label`
(an integer or a string). -/
inductive PyVal where
  | int (n : Int)
  | str (s : String)
deriving DecidableEq, Repr

/-- Python `int(v)` on such a value: identity on integers, string
parsing otherwise. -/
def pyInt (v : PyVal) : Option Int :=
  match v with
  | .int n => some n
  | .str s => parsePyInt s

/-- `stock_label(qty)`: `In stock` when `int(qty) > 0`, and
`Out of stock` when the comparison fails or `int(...)` raises. -/
def stock_label (v : PyVal) : String :=
  match pyInt v with
  | some n => if n > 0 then "In stock" else "Out of stock"
  | none => "Out of stock"

/-- One step of `re.search` pattern matching at a fixed position, for
patterns made of literal characters and the metacharacter `.` (which
matches any single character). -/
def reMatchAt : List Char → List Char → Bool
  | [], _ => true
  | _ :: _, [] => false
  | p :: ps, c :: cs => (p = '.' || p = c) && reMatchAt ps cs

/-- `re.search(pat, s)` (as invoked by pandas `Series.str.contains`):
the pattern matches starting at some position of `s`.  Faithful for
patterns built from literal characters and `.`. -/
def reSearch (pat s : String) : Bool :=
  s.toList.tails.any (reMatchAt pat.toList)

/-- Plain (non-regex) substring test: `q` occurs literally in `s`.
This is the reading used by the specification's words
(case-insensitive substring match). -/
def substrOf (q s : String) : Bool :=
  s.toList.tails.any (fun suf => q.toList.isPrefixOf suf)

/-- The `/products` route: strip and lowercase the query and the brand
filter; when the query is nonempty keep rows whose lowercased `name` or
`sku` matches it (`Series.str.contains`, i.e. `re.search`); when the
brand filter is nonempty keep rows whose lowercased `brand` matches
it. -/
def products (t : List Product) (q_raw brand_raw : String) : List Product :=
  let q := pyLower (pyStrip q_raw)
  let brand_q := pyLower (pyStrip brand_raw)
  let t1 :=
    if q = "" then t
    else t.filter (fun p => reSearch q (pyLower p.name) || reSearch q (pyLower p.sku))
  if brand_q = "" then t1
  else t1.filter (fun p => reSearch brand_q (pyLower p.brand))

/-- The products listing as the specification describes it: one pass
keeping exactly the rows where (empty query or literal substring of
name or sku) and (empty brand filter or literal substring of brand),
everything lowercased after stripping. -/
def productsSpec (t : List Product) (q_raw brand_raw : String) : List Product :=
  let q := pyLower (pyStrip q_raw)
  let brand_q := pyLower (pyStrip brand_raw)
  t.filter (fun p =>
    (q == "" || substrOf q (pyLower p.name) || substrOf q (pyLower p.sku))
    && (brand_q == "" || substrOf brand_q (pyLower p.brand)))

/-- The regex metacharacters of Python `re`. -/
def regexMeta : List Char :=
  ['.', '^', '$', '*', '+', '?', '\x7b', '\x7d', '[', ']', '(', ')', '|', '\\']

/-- The session shopping list: a Python dict from sku to quantity,
as an ordered association list. -/
abbrev Cart := List (String × Int)

/-- Python dict read `d[k]` / `d.get(k)`: first entry with key `k`. -/
def dictLookup : Cart → String → Option Int
  | [], _ => none
  | (k', v') :: rest, k => if k' = k then some v' else dictLookup rest k

/-- Python `cart.get(sku, 0)`. -/
def dictGet (d : Cart) (k : String) : Int :=
  (dictLookup d k).getD 0

/-- Python dict assignment `d[k] = v`: update the entry in place when
the key is present, append it otherwise. -/
def dictSet : Cart → String → Int → Cart
  | [], k, v => [(k, v)]
  | (k', v') :: rest, k, v =>
    if k' = k then (k, v) :: rest else (k', v') :: dictSet rest k v

/-- Python `del d[k]`: drop the entry with key `k`. -/
def dictDel : Cart → String → Cart
  | [], _ => []
  | (k', v') :: rest, k => if k' = k then rest else (k', v') :: dictDel rest k

/-- Python `str.startswith(p)`. -/
def pyStartsWith (k p : String) : Bool :=
  p.toList.isPrefixOf k.toList

/-- `k.split(p, 1)[1]` for a key known to start with the 4-character
marker `qty-`: everything after the marker. -/
def dropChars (k : String) (n : Nat) : String :=
  String.mk (k.toList.drop n)

/-- The `/add_to_list` route: strip the posted sku and quantity, parse
the quantity (`int`, clamped to 1 on failure or when below 1); when no
inventory row has the sku, flash `Product not found.` and leave the
cart alone; otherwise add the quantity to the cart entry (creating it
at 0) and flash a confirmation. -/
def add_to_list (t : List Product) (cart : Cart) (sku_raw qty_raw : String) :
    Cart × String :=
  let sku := pyStrip sku_raw
  let qty0 := (parsePyInt (pyStrip qty_raw)).getD 1
  let qty := if qty0 < 1 then 1 else qty0
  if (t.filter (fun p => p.sku == sku)).isEmpty then
    (cart, "Product not found.")
  else
    (dictSet cart sku (dictGet cart sku + qty),
     "Added " ++ toString qty ++ " x " ++ sku ++ " to your shopping list.")

/-- One iteration of the `/update_shopping_list` loop over the posted
form fields: keys of the shape `qty-<sku>` contribute `sku ↦ q` when
the value parses to a positive integer (parse failure counts as 0). -/
def updStep (acc : Cart) (kv : String × String) : Cart :=
  if pyStartsWith kv.1 "qty-" then
    (fun sku =>
      (fun q => if q > 0 then dictSet acc sku q else acc)
        ((parsePyInt kv.2).getD 0))
      (dropChars kv.1 4)
  else acc

/-- The `/update_shopping_list` route: rebuild the mapping from the
posted form only — the previous cart is read (`session.setdefault`) but
never consulted — and store it, flashing a confirmation. -/
def update_shopping_list (_cart : Cart) (form : List (String × String)) :
    Cart × String :=
  (form.foldl updStep [], "Shopping list updated.")

/-- The `/remove_from_list` route: strip the posted sku; delete its
entry and flash a confirmation when present, otherwise do nothing. -/
def remove_from_list (cart : Cart) (sku_raw : String) : Cart × Option String :=
  let sku := pyStrip sku_raw
  if (dictLookup cart sku).isSome then
    (dictDel cart sku, some ("Removed " ++ sku ++ " from your shopping list."))
  else
    (cart, none)

/-- The `/clear_list` route: reset the cart unconditionally. -/
def clear_list (_cart : Cart) : Cart × String :=
  ([], "Shopping list cleared.")

/-- One row of the rendered shopping list. -/
structure ViewItem where
  sku : String
  name : String
  qty : Int
  aisle : String
deriving DecidableEq, Repr

/-- The `/shopping-list` view: enrich every cart entry from a freshly
loaded table — first row with the same sku when it exists, otherwise a
`(not in inventory)` placeholder — and total the quantities. -/
def shopping_list (t : List Product) (cart : Cart) : List ViewItem × Int :=
  (cart.map (fun e =>
    match (t.filter (fun p => p.sku == e.1)).head? with
    | none => { sku := e.1, name := "(not in inventory)", qty := e.2, aisle := "" }
    | some r => { sku := e.1, name := r.name, qty := e.2, aisle := r.aisle }),
   (cart.map (fun e => e.2)).sum)

/-- One user-triggered mutation of the shopping-list store. -/
inductive Op where
  | add (t : List Product) (sku_raw qty_raw : String)
  | bulk (form : List (String × String))
  | remove (sku_raw : String)
  | clear

/-- Apply one mutation to the cart (dropping the flash message). -/
def applyOp (cart : Cart) : Op → Cart
  | .add t sku_raw qty_raw => (add_to_list t cart sku_raw qty_raw).1
  | .bulk form => (update_shopping_list cart form).1
  | .remove sku_raw => (remove_from_list cart sku_raw).1
  | .clear => (clear_list cart).1

/-- The cart reached from the empty session store by a sequence of
mutations. -/
def runOps (ops : List Op) : Cart :=
  ops.foldl applyOp []

/-- The quantity actually added by `add_to_list`: the posted string
parsed as an integer, clamped to 1 on parse failure or when below 1. -/
def clampQty (qty_raw : String) : Int :=
  match parsePyInt (pyStrip qty_raw) with
  | some n => if n < 1 then 1 else n
  | none => 1

/-- A concrete two-row inventory (the specification's test vector). -/
def TInv : List Product :=
  [{ sku := "A1", name := "Milk", brand := "DailyCo", size := "1L", color := "",
     ingredient_tags := "dairy", aisle := "Aisle 1", price := 2, stock_qty := 3 },
   { sku := "B2", name := "Bread", brand := "BakeCo", size := "", color := "",
     ingredient_tags := "wheat", aisle := "Aisle 2", price := 1, stock_qty := 0 }]

/-- A raw table whose single row has a present sku and a missing
(`NaN`) name cell. -/
def RawNullName : RawTable :=
  [("sku", [.str "A1"]), ("name", [.missing])]

/-- A raw table whose single row has a non-numeric price cell and a
missing stock cell. -/
def RawMalformed : RawTable :=
  [("sku", [.str "A1"]), ("price", [.str "abc"]), ("stock_qty", [.missing])]

/-- The shopping-list data invariant: every stored quantity is a
positive integer. -/
def CartPos (c : Cart) : Prop :=
  ∀ p ∈ c, 1 ≤ p.2

/-! ## Dictionary lemmas -/

theorem dictLookup_mem {d : Cart} {k : String} {v : Int}
    (h : dictLookup d k = some v) : (k, v) ∈ d := by
  induction d with
  | nil => simp [dictLookup] at h
  | cons p rest ih =>
    by_cases hk : p.1 = k
    · rw [show p = (p.1, p.2) from rfl] at h ⊢
      simp only [dictLookup, if_pos hk, Option.some.injEq] at h
      simp [hk, h]
    · rw [show p = (p.1, p.2) from rfl] at h
      simp only [dictLookup, if_neg hk] at h
      exact List.mem_cons_of_mem _ (ih h)

theorem mem_dictSet {d : Cart} {k : String} {v : Int} {p : String × Int}
    (h : p ∈ dictSet d k v) : p ∈ d ∨ p = (k, v) := by
  induction d with
  | nil => simpa [dictSet] using h
  | cons q rest ih =>
    rw [show q = (q.1, q.2) from rfl] at h
    by_cases hk : q.1 = k
    · simp only [dictSet, if_pos hk] at h
      rcases List.mem_cons.mp h with h1 | h2
      · exact Or.inr h1
      · exact Or.inl (List.mem_cons_of_mem _ h2)
    · simp only [dictSet, if_neg hk] at h
      rcases List.mem_cons.mp h with h1 | h2
      · exact Or.inl (by simp [h1])
      · rcases ih h2 with h3 | h4
        · exact Or.inl (List.mem_cons_of_mem _ h3)
        · exact Or.inr h4

theorem dictLookup_dictSet_self (d : Cart) (k : String) (v : Int) :
    dictLookup (dictSet d k v) k = some v := by
  induction d with
  | nil => simp [dictSet, dictLookup]
  | cons q rest ih =>
    by_cases hk : q.1 = k
    · rw [show q = (q.1, q.2) from rfl]
      simp [dictSet, if_pos hk, dictLookup]
    · rw [show q = (q.1, q.2) from rfl]
      simp [dictSet, if_neg hk, dictLookup, hk, ih]

theorem dictLookup_dictSet_ne (d : Cart) {k k' : String} (v : Int)
    (h : k' ≠ k) : dictLookup (dictSet d k v) k' = dictLookup d k' := by
  induction d with
  | nil => simp [dictSet, dictLookup, Ne.symm h]
  | cons q rest ih =>
    by_cases hk : q.1 = k
    · rw [show q = (q.1, q.2) from rfl]
      simp [dictSet, if_pos hk, dictLookup, hk, Ne.symm h]
    · rw [show q = (q.1, q.2) from rfl]
      simp [dictSet, if_neg hk, dictLookup, ih]

theorem mem_dictDel {d : Cart} {k : String} {p : String × Int}
    (h : p ∈ dictDel d k) : p ∈ d := by
  induction d with
  | nil => simp [dictDel] at h
  | cons q rest ih =>
    rw [show q = (q.1, q.2) from rfl] at h
    by_cases hk : q.1 = k
    · simp only [dictDel, if_pos hk] at h
      exact List.mem_cons_of_mem _ h
    · simp only [dictDel, if_neg hk] at h
      rcases List.mem_cons.mp h with h1 | h2
      · exact h1 ▸ List.mem_cons_self _ _
      · exact List.mem_cons_of_mem _ (ih h2)

/-! ## Form-key lemmas (`qty-` marker handling) -/

theorem key_split {k : String} (h : pyStartsWith k "qty-" = true) :
    k = "qty-" ++ dropChars k 4 := by
  unfold pyStartsWith at h
  obtain ⟨t, ht⟩ := (List.isPrefixOf_iff_prefix.mp h)
  unfold dropChars
  have hk : k.toList = "qty-".toList ++ t := ht.symm
  have hd : k.toList.drop 4 = t := by
    rw [hk]
    exact List.drop_left "qty-".toList t
  rw [hd]
  have : String.mk k.toList = String.mk ("qty-".toList ++ t) := by rw [hk]
  exact this

theorem key_startsWith (sku : String) :
    pyStartsWith ("qty-" ++ sku) "qty-" = true := by
  unfold pyStartsWith
  apply List.isPrefixOf_iff_prefix.mpr
  have : ("qty-" ++ sku).toList = "qty-".toList ++ sku.toList := String.data_append _ _
  rw [this]
  exact List.prefix_append _ _

/-! ## Regex-fragment lemmas -/

theorem reMatchAt_eq_isPrefixOf {ps : List Char} (h : ∀ c ∈ ps, c ≠ '.')
    (cs : List Char) : reMatchAt ps cs = ps.isPrefixOf cs := by
  induction ps generalizing cs with
  | nil => cases cs <;> rfl
  | cons p ps ih =>
    cases cs with
    | nil => rfl
    | cons c cs =>
      have hp : p ≠ '.' := h p (List.mem_cons_self _ _)
      have ih' := ih (fun x hx => h x (List.mem_cons_of_mem _ hx)) cs
      by_cases hpc : p = c <;>
        simp [reMatchAt, List.isPrefixOf, hp, hpc, ih']

theorem reSearch_eq_substrOf {pat : String} (h : ∀ c ∈ pat.toList, c ≠ '.')
    (s : String) : reSearch pat s = substrOf pat s := by
  unfold reSearch substrOf
  congr 1
  funext suf
  exact reMatchAt_eq_isPrefixOf h suf

theorem dropChars_key (sku : String) : dropChars ("qty-" ++ sku) 4 = sku := by
  unfold dropChars
  have h1 : ("qty-" ++ sku).toList = "qty-".toList ++ sku.toList := String.data_append _ _
  have h2 : List.drop 4 ("qty-".toList ++ sku.toList) = sku.toList :=
    List.drop_left "qty-".toList sku.toList
  rw [h1, h2]
  rfl

/-! ## Claim theorems -/

/-- C1: the claim says a missing/null text cell loads as the empty
string and that no raw garbled value (such as a NaN rendered as text)
is surfaced.  The code applies `astype(str)` before `fillna`, so a
missing `name` cell loads as the literal string `nan`: evaluating the
loader on a one-row table whose `name` cell is null yields `nan`, not
the empty string. -/
theorem load_products_null_text_cell_is_nan :
    (load_products RawNullName).map Product.name = ["nan"] ∧ "nan" ≠ "" := by
  constructor
  · decide
  · decide

/-- C2 counterexample: on the concrete inventory `TInv`, the query `.`
(a regex metacharacter) makes the route return every row, while the
claimed literal-substring semantics (`productsSpec`) returns none, so
the claim fails for arbitrary query strings. -/
theorem products_regex_metachar_counterexample :
    products TInv "." "" = TInv ∧ productsSpec TInv "." "" = [] ∧
      products TInv "." "" ≠ productsSpec TInv "." "" := by
  refine ⟨by decide, by decide, by decide⟩

/-- C2 (amended): for query and brand strings whose stripped,
lowercased forms contain no regex metacharacter, the products listing
returns exactly the rows that pass the claimed case-insensitive
literal-substring predicates (query against name or sku, AND brand
against brand; an empty query or filter passes everything). -/
theorem products_filter_eq_substring_spec (t : List Product) (q_raw brand_raw : String)
    (hq : ∀ c ∈ (pyLower (pyStrip q_raw)).toList, c ∉ regexMeta)
    (hb : ∀ c ∈ (pyLower (pyStrip brand_raw)).toList, c ∉ regexMeta) :
    products t q_raw brand_raw = productsSpec t q_raw brand_raw := by
  have hdot : ('.' : Char) ∈ regexMeta := by decide
  have hq' : ∀ c ∈ (pyLower (pyStrip q_raw)).toList, c ≠ '.' :=
    fun c hc he => (hq c hc) (he ▸ hdot)
  have hb' : ∀ c ∈ (pyLower (pyStrip brand_raw)).toList, c ≠ '.' :=
    fun c hc he => (hb c hc) (he ▸ hdot)
  by_cases hqe : pyLower (pyStrip q_raw) = "" <;>
    by_cases hbe : pyLower (pyStrip brand_raw) = ""
  · simp [products, productsSpec, hqe, hbe]
  · have hbeq : (pyLower (pyStrip brand_raw) == "") = false :=
      beq_eq_false_iff_ne.mpr hbe
    simp only [products, productsSpec, if_pos hqe, if_neg hbe, hqe, hbeq]
    simp only [beq_self_eq_true, Bool.true_or, Bool.false_or, Bool.true_and]
    exact List.filter_congr (fun p _ => reSearch_eq_substrOf hb' (pyLower p.brand))
  · have hqeq : (pyLower (pyStrip q_raw) == "") = false :=
      beq_eq_false_iff_ne.mpr hqe
    simp only [products, productsSpec, if_neg hqe, if_pos hbe, hbe, hqeq]
    simp only [beq_self_eq_true, Bool.true_or, Bool.false_or, Bool.and_true]
    exact List.filter_congr (fun p _ => by
      rw [reSearch_eq_substrOf hq' (pyLower p.name), reSearch_eq_substrOf hq' (pyLower p.sku)])
  · have hbeq : (pyLower (pyStrip brand_raw) == "") = false :=
      beq_eq_false_iff_ne.mpr hbe
    have hqeq : (pyLower (pyStrip q_raw) == "") = false :=
      beq_eq_false_iff_ne.mpr hqe
    simp only [products, productsSpec, if_neg hqe, if_neg hbe, hqeq, hbeq]
    rw [List.filter_filter]
    simp only [Bool.false_or]
    exact List.filter_congr (fun p _ => by
      rw [reSearch_eq_substrOf hq' (pyLower p.name), reSearch_eq_substrOf hq' (pyLower p.sku),
        reSearch_eq_substrOf hb' (pyLower p.brand), Bool.and_comm])

/-- C2 witness: the amended theorem applied to the concrete inventory
and the metacharacter-free query `milk` (the spec's own test vector). -/
theorem products_filter_eq_substring_spec_witness :
    products TInv "milk" "" = productsSpec TInv "milk" "" :=
  products_filter_eq_substring_spec TInv "milk" "" (by decide) (by decide)

theorem stock_label_some {v : PyVal} {n : Int} (h : pyInt v = some n) :
    stock_label v = if n > 0 then "In stock" else "Out of stock" := by
  unfold stock_label
  rw [h]

theorem stock_label_none {v : PyVal} (h : pyInt v = none) :
    stock_label v = "Out of stock" := by
  unfold stock_label
  rw [h]

theorem updStep_eq (acc : Cart) (kv : String × String) :
    updStep acc kv =
      if pyStartsWith kv.1 "qty-" = true then
        (if 0 < (parsePyInt kv.2).getD 0 then
          dictSet acc (dropChars kv.1 4) ((parsePyInt kv.2).getD 0)
        else acc)
      else acc := by
  unfold updStep
  by_cases h : pyStartsWith kv.1 "qty-" = true <;> simp [h]

theorem foldl_updStep_lookup_none (form : List (String × String)) (acc : Cart)
    (sku : String)
    (h : ∀ kv ∈ form, ¬(pyStartsWith kv.1 "qty-" = true ∧ dropChars kv.1 4 = sku
          ∧ 0 < (parsePyInt kv.2).getD 0)) :
    dictLookup (form.foldl updStep acc) sku = dictLookup acc sku := by
  induction form generalizing acc with
  | nil => rfl
  | cons kv rest ih =>
    have hrest := fun kv' hkv' => h kv' (List.mem_cons_of_mem _ hkv')
    have hkv := h kv (List.mem_cons_self _ _)
    rw [List.foldl_cons, ih (updStep acc kv) hrest, updStep_eq]
    by_cases h1 : pyStartsWith kv.1 "qty-" = true
    · rw [if_pos h1]
      by_cases h2 : 0 < (parsePyInt kv.2).getD 0
      · rw [if_pos h2]
        have hne : dropChars kv.1 4 ≠ sku := fun he => hkv ⟨h1, he, h2⟩
        exact dictLookup_dictSet_ne _ _ (Ne.symm hne)
      · rw [if_neg h2]
    · rw [if_neg h1]

theorem foldl_updStep_lookup_some (form : List (String × String)) (acc : Cart)
    (sku v : String) (hnd : (form.map Prod.fst).Nodup)
    (hmem : ("qty-" ++ sku, v) ∈ form)
    (hpos : 0 < (parsePyInt v).getD 0) :
    dictLookup (form.foldl updStep acc) sku = some ((parsePyInt v).getD 0) := by
  induction form generalizing acc with
  | nil => exact absurd hmem (List.not_mem_nil _)
  | cons kv rest ih =>
    rw [List.foldl_cons]
    rcases List.mem_cons.mp hmem with heq | hmem'
    · have hstep : updStep acc kv = dictSet acc sku ((parsePyInt v).getD 0) := by
        rw [updStep_eq, ← heq]
        simp [key_startsWith, dropChars_key, hpos]
      have hnd2 : (kv.1 :: rest.map Prod.fst).Nodup := by
        rw [← List.map_cons]; exact hnd
      have hk1 : kv.1 = "qty-" ++ sku := by rw [← heq]
      have hnotin : ("qty-" ++ sku) ∉ rest.map Prod.fst :=
        hk1 ▸ (List.nodup_cons.mp hnd2).1
      have hnomem : ∀ kv' ∈ rest,
          ¬(pyStartsWith kv'.1 "qty-" = true ∧ dropChars kv'.1 4 = sku
            ∧ 0 < (parsePyInt kv'.2).getD 0) := by
        rintro kv' hkv' ⟨hs, hd, _⟩
        have hkey : kv'.1 = "qty-" ++ sku := by rw [key_split hs, hd]
        exact hnotin (hkey ▸ List.mem_map_of_mem Prod.fst hkv')
      rw [hstep, foldl_updStep_lookup_none rest _ sku hnomem]
      exact dictLookup_dictSet_self _ _ _
    · have hnd2 : (kv.1 :: rest.map Prod.fst).Nodup := by
        rw [← List.map_cons]; exact hnd
      exact ih (updStep acc kv) (List.nodup_cons.mp hnd2).2 hmem'

/-- C4: Bulk Update stores exactly the mapping read off the posted
form — a sku maps to `q` iff some field `qty-<sku>` parses to the
positive integer `q` (parse failure counting as 0) — independently of
the prior store, which contributes nothing; and it flashes the
confirmation message. -/
theorem update_shopping_list_replaces_store (cart cart' : Cart)
    (form : List (String × String)) (sku : String) (q : Int)
    (hnd : (form.map Prod.fst).Nodup) :
    (update_shopping_list cart form).1 = (update_shopping_list cart' form).1
    ∧ (update_shopping_list cart form).2 = "Shopping list updated."
    ∧ (dictLookup (update_shopping_list cart form).1 sku = some q ↔
        0 < q ∧ ∃ v, ("qty-" ++ sku, v) ∈ form ∧ (parsePyInt v).getD 0 = q) := by
  refine ⟨rfl, rfl, ?_⟩
  constructor
  · intro hl
    by_cases hex : ∃ kv ∈ form, pyStartsWith kv.1 "qty-" = true
        ∧ dropChars kv.1 4 = sku ∧ 0 < (parsePyInt kv.2).getD 0
    · obtain ⟨kv, hkv, hs, hd, hq⟩ := hex
      have hkey : kv.1 = "qty-" ++ sku := by rw [key_split hs, hd]
      have hkv' : ("qty-" ++ sku, kv.2) ∈ form := by
        have hkveq : kv = ("qty-" ++ sku, kv.2) := by
          rw [← hkey]
        exact hkveq ▸ hkv
      have hlk := foldl_updStep_lookup_some form [] sku kv.2 hnd hkv' hq
      have hl' : dictLookup (form.foldl updStep []) sku = some q := hl
      rw [hlk] at hl'
      have hqv : (parsePyInt kv.2).getD 0 = q := Option.some.inj hl' 
      exact ⟨hqv ▸ hq, kv.2, hkv', hqv⟩
    · push_neg at hex
      have hlk := foldl_updStep_lookup_none form [] sku
        (fun kv hkv hc => absurd hc.2.2 (not_lt.mpr (hex kv hkv hc.1 hc.2.1)))
      have hl' : dictLookup (form.foldl updStep []) sku = some q := hl
      rw [hlk] at hl'
      exact absurd hl' (by simp [dictLookup])
  · rintro ⟨hq, v, hmem, hv⟩
    have hlk := foldl_updStep_lookup_some form [] sku v hnd hmem (hv ▸ hq)
    rw [hv] at hlk
    exact hlk

/-- C4 witness: replacing the store `{A1 ↦ 5, B2 ↦ 1}` with the single
form field `qty-A1=2` stores quantity 2 at `A1`. -/
theorem update_shopping_list_replaces_store_witness :
    dictLookup (update_shopping_list [("A1", 5), ("B2", 1)] [("qty-A1", "2")]).1 "A1"
      = some 2 := by
  have h := (update_shopping_list_replaces_store [("A1", 5), ("B2", 1)] []
    [("qty-A1", "2")] "A1" 2 (by decide)).2.2
  exact h.mpr ⟨by decide, "2", by decide, by decide⟩

/-- C10: Bulk Update validates nothing against the inventory — any
form field `qty-<sku>` whose value parses to a positive integer is
stored, even when the sku (here possibly the empty string) appears in
no inventory row, and the flash message is always the plain
confirmation, never an error. -/
theorem update_shopping_list_no_inventory_validation (t : List Product) (cart : Cart)
    (form : List (String × String)) (sku v : String) (q : Int)
    (hnd : (form.map Prod.fst).Nodup)
    (_habsent : ∀ p ∈ t, p.sku ≠ sku)
    (hmem : ("qty-" ++ sku, v) ∈ form)
    (hv : (parsePyInt v).getD 0 = q) (hq : 0 < q) :
    dictLookup (update_shopping_list cart form).1 sku = some q
    ∧ (update_shopping_list cart form).2 = "Shopping list updated." := by
  refine ⟨?_, rfl⟩
  have hlk := foldl_updStep_lookup_some form [] sku v hnd hmem (hv ▸ hq)
  rw [hv] at hlk
  exact hlk

/-- C10 witness: the form field `qty-` (empty sku suffix) inserts the
empty-string sku, which no row of the concrete inventory carries, with
quantity 2, and only the confirmation message is flashed. -/
theorem update_shopping_list_no_inventory_validation_witness :
    dictLookup (update_shopping_list [("B9", 1)] [("qty-", "2")]).1 "" = some 2
    ∧ (update_shopping_list [("B9", 1)] [("qty-", "2")]).2 = "Shopping list updated." :=
  update_shopping_list_no_inventory_validation TInv [("B9", 1)] [("qty-", "2")]
    "" "2" 2 (by decide) (by decide) (by decide) (by decide) (by decide)

theorem clampQty_eq (qty_raw : String) :
    (if (parsePyInt (pyStrip qty_raw)).getD 1 < 1 then 1
      else (parsePyInt (pyStrip qty_raw)).getD 1) = clampQty qty_raw := by
  unfold clampQty
  cases parsePyInt (pyStrip qty_raw) <;> simp [Option.getD]

theorem clampQty_pos (qty_raw : String) : 1 ≤ clampQty qty_raw := by
  unfold clampQty
  cases parsePyInt (pyStrip qty_raw) with
  | none => exact le_refl 1
  | some n =>
    by_cases hn : n < 1
    · simp [hn]
    · simp only [if_neg hn]; omega

/-- C3: adding a sku absent from the freshly loaded inventory leaves
the shopping-list store exactly unchanged and queues the user-visible
`Product not found.` message (the embedding's rendering of
`ProductNotFoundError`). -/
theorem add_to_list_unknown_sku_unchanged (t : List Product) (cart : Cart)
    (sku_raw qty_raw : String) (h : ∀ p ∈ t, p.sku ≠ pyStrip sku_raw) :
    add_to_list t cart sku_raw qty_raw = (cart, "Product not found.") := by
  have hfilter : t.filter (fun p => p.sku == pyStrip sku_raw) = [] :=
    List.filter_eq_nil_iff.mpr (fun p hp => by simpa using h p hp)
  simp [add_to_list, hfilter]

/-- C3 witness: adding the unknown sku `ZZZ` against the concrete
inventory leaves the store `{A1 ↦ 2}` untouched and signals the
failure message. -/
theorem add_to_list_unknown_sku_unchanged_witness :
    add_to_list TInv [("A1", 2)] "ZZZ" "1" = ([("A1", 2)], "Product not found.") :=
  add_to_list_unknown_sku_unchanged TInv [("A1", 2)] "ZZZ" "1" (by decide)

/-- C5: adding a sku present in the inventory stores, at that sku, the
old quantity (0 when absent) plus the posted quantity parsed as an
integer and clamped to 1 on failure or when below 1, and touches no
other key. -/
theorem add_to_list_accumulates (t : List Product) (cart : Cart)
    (sku_raw qty_raw : String) (h : ∃ p ∈ t, p.sku = pyStrip sku_raw) :
    (add_to_list t cart sku_raw qty_raw).1
        = dictSet cart (pyStrip sku_raw) (dictGet cart (pyStrip sku_raw) + clampQty qty_raw)
      ∧ 1 ≤ clampQty qty_raw
      ∧ dictLookup (add_to_list t cart sku_raw qty_raw).1 (pyStrip sku_raw)
          = some (dictGet cart (pyStrip sku_raw) + clampQty qty_raw)
      ∧ ∀ k, k ≠ pyStrip sku_raw →
          dictLookup (add_to_list t cart sku_raw qty_raw).1 k = dictLookup cart k := by
  obtain ⟨p, hp, hsku⟩ := h
  have hmem : p ∈ t.filter (fun r => r.sku == pyStrip sku_raw) :=
    List.mem_filter.mpr ⟨hp, by simp [hsku]⟩
  have hne : (t.filter (fun r => r.sku == pyStrip sku_raw)).isEmpty = false := by
    cases hf : t.filter (fun r => r.sku == pyStrip sku_raw) with
    | nil => rw [hf] at hmem; exact absurd hmem (List.not_mem_nil p)
    | cons a l => rfl
  have hcond : ¬((t.filter (fun r => r.sku == pyStrip sku_raw)).isEmpty = true) := by
    rw [hne]; exact Bool.false_ne_true
  have h1 : (add_to_list t cart sku_raw qty_raw).1
      = dictSet cart (pyStrip sku_raw) (dictGet cart (pyStrip sku_raw) + clampQty qty_raw) := by
    simp only [add_to_list, if_neg hcond, clampQty_eq]
  refine ⟨h1, clampQty_pos qty_raw, ?_, ?_⟩
  · rw [h1]; exact dictLookup_dictSet_self _ _ _
  · intro k hk; rw [h1]; exact dictLookup_dictSet_ne _ _ hk

/-- C5 witness: from the empty list, Add(`A1`, 2) then Add(`A1`, 3)
against the concrete inventory yields quantity 5 at `A1`. -/
theorem add_to_list_accumulates_witness :
    dictLookup (add_to_list TInv (add_to_list TInv [] "A1" "2").1 "A1" "3").1 "A1"
      = some 5 := by
  have h := add_to_list_accumulates TInv (add_to_list TInv [] "A1" "2").1 "A1" "3" (by decide)
  exact h.2.2.1.trans (by decide)

theorem cartPos_updStep {acc : Cart} (h : CartPos acc) (kv : String × String) :
    CartPos (updStep acc kv) := by
  rw [updStep_eq]
  by_cases h1 : pyStartsWith kv.1 "qty-" = true
  · rw [if_pos h1]
    by_cases h2 : 0 < (parsePyInt kv.2).getD 0
    · rw [if_pos h2]
      intro p hp
      rcases mem_dictSet hp with hm | he
      · exact h p hm
      · rw [he]
        show 1 ≤ (parsePyInt kv.2).getD 0
        omega
    · rw [if_neg h2]; exact h
  · rw [if_neg h1]; exact h

theorem cartPos_foldl_updStep (form : List (String × String)) {acc : Cart}
    (h : CartPos acc) : CartPos (form.foldl updStep acc) := by
  induction form generalizing acc with
  | nil => exact h
  | cons kv rest ih => rw [List.foldl_cons]; exact ih (cartPos_updStep h kv)

theorem cartPos_add (t : List Product) {cart : Cart} (sku_raw qty_raw : String)
    (h : CartPos cart) : CartPos ((add_to_list t cart sku_raw qty_raw).1) := by
  by_cases hc : (t.filter (fun p => p.sku == pyStrip sku_raw)).isEmpty = true
  · simp only [add_to_list, if_pos hc]; exact h
  · simp only [add_to_list, if_neg hc, clampQty_eq]
    intro p hp
    rcases mem_dictSet hp with hm | he
    · exact h p hm
    · rw [he]
      show 1 ≤ dictGet cart (pyStrip sku_raw) + clampQty qty_raw
      have h1 := clampQty_pos qty_raw
      have h2 : 0 ≤ dictGet cart (pyStrip sku_raw) := by
        unfold dictGet
        cases hlk : dictLookup cart (pyStrip sku_raw) with
        | none => simp
        | some w =>
          have hw := h _ (dictLookup_mem hlk)
          simp only [Option.getD]
          omega
      omega

theorem cartPos_applyOp {cart : Cart} (h : CartPos cart) (op : Op) :
    CartPos (applyOp cart op) := by
  cases op with
  | add t sku_raw qty_raw => exact cartPos_add t sku_raw qty_raw h
  | bulk form =>
    show CartPos ((update_shopping_list cart form).1)
    exact cartPos_foldl_updStep form (fun p hp => absurd hp (List.not_mem_nil p))
  | remove sku_raw =>
    show CartPos ((remove_from_list cart sku_raw).1)
    by_cases hc : (dictLookup cart (pyStrip sku_raw)).isSome = true
    · simp only [remove_from_list, if_pos hc]
      exact fun p hp => h p (mem_dictDel hp)
    · simp only [remove_from_list, if_neg hc]; exact h
  | clear => exact fun p hp => absurd hp (List.not_mem_nil p)

/-- C6: every shopping-list state reachable from the empty store by any
sequence of Add, Bulk Update, Remove and Clear operations stores only
positive quantities. -/
theorem runOps_quantities_positive (ops : List Op) (sku : String) (q : Int)
    (h : (sku, q) ∈ runOps ops) : 1 ≤ q := by
  have hgen : ∀ (l : List Op) (c : Cart), CartPos c → CartPos (l.foldl applyOp c) := by
    intro l
    induction l with
    | nil => exact fun c hc => hc
    | cons op rest ih =>
      intro c hc
      rw [List.foldl_cons]
      exact ih (applyOp c op) (cartPos_applyOp hc op)
  exact hgen ops [] (fun p hp => absurd hp (List.not_mem_nil p)) (sku, q) h

/-- C6 witness: the state reached by one Add of 2 × `A1` holds the
entry `(A1, 2)`, whose quantity the theorem bounds below by 1. -/
theorem runOps_quantities_positive_witness :
    ("A1", (2 : Int)) ∈ runOps [Op.add TInv "A1" "2"] ∧ (1 : Int) ≤ 2 :=
  ⟨by decide, runOps_quantities_positive [Op.add TInv "A1" "2"] "A1" 2 (by decide)⟩

/-- C7: a row whose `price` cell fails numeric parsing (or is missing)
loads with price exactly 0, and one whose `stock_qty` cell fails loads
with stock exactly 0; the loader is total, so no malformed cell ever
raises. -/
theorem load_products_malformed_numeric_defaults (t : RawTable) (i : Nat)
    (hi : i < nRows t) (pc sc : RawCell)
    (hp : (getColD t "price" (RawCell.num 0))[i]? = some pc)
    (hs : (getColD t "stock_qty" (RawCell.num 0))[i]? = some sc)
    (hpn : to_numeric pc = none) (hsn : to_numeric sc = none) :
    (load_products t)[i]? = some (loadRow t i)
    ∧ (loadRow t i).price = 0 ∧ (loadRow t i).stock_qty = 0 := by
  refine ⟨?_, ?_, ?_⟩
  · unfold load_products
    rw [List.getElem?_map, List.getElem?_range hi]
    rfl
  · show (priceColumn t).getD i 0 = 0
    unfold priceColumn
    rw [List.getD_eq_getElem?_getD, List.getElem?_map, hp]
    simp [hpn]
  · show (stockColumn t).getD i 0 = 0
    unfold stockColumn
    rw [List.getD_eq_getElem?_getD, List.getElem?_map, hs]
    simp [hsn, ratTrunc]

/-- C7 witness: the concrete table with price cell `abc` and missing
stock cell loads its row with price 0 and stock 0. -/
theorem load_products_malformed_numeric_defaults_witness :
    (load_products RawMalformed)[0]? = some (loadRow RawMalformed 0)
    ∧ (loadRow RawMalformed 0).price = 0 ∧ (loadRow RawMalformed 0).stock_qty = 0 :=
  load_products_malformed_numeric_defaults RawMalformed 0 (by decide)
    (RawCell.str "abc") RawCell.missing (by decide) (by decide) (by decide) (by decide)

/-- C9: the shopping-list view renders one item per stored entry,
keeping its sku and quantity; an entry whose sku matches no inventory
row gets the `(not in inventory)` placeholder with empty aisle, one
that matches gets the first matching row's name and aisle; the returned
total is the sum of all stored quantities. -/
theorem shopping_list_view_spec (t : List Product) (cart : Cart) :
    (shopping_list t cart).2 = (cart.map (fun e => e.2)).sum
    ∧ (shopping_list t cart).1.length = cart.length
    ∧ ∀ (i : Nat) (e : String × Int) (it : ViewItem),
        cart[i]? = some e → (shopping_list t cart).1[i]? = some it →
        it.sku = e.1 ∧ it.qty = e.2
        ∧ ((∀ p ∈ t, p.sku ≠ e.1) → it.name = "(not in inventory)" ∧ it.aisle = "")
        ∧ (∀ r, (t.filter (fun p => p.sku == e.1)).head? = some r →
            it.name = r.name ∧ it.aisle = r.aisle) := by
  refine ⟨rfl, by simp [shopping_list], ?_⟩
  intro i e it he hit
  have hit' : (cart.map (fun e =>
      match (t.filter (fun p => p.sku == e.1)).head? with
      | none => ({ sku := e.1, name := "(not in inventory)", qty := e.2, aisle := "" } : ViewItem)
      | some r => { sku := e.1, name := r.name, qty := e.2, aisle := r.aisle }))[i]? = some it := hit
  rw [List.getElem?_map, he] at hit'
  simp only [Option.map_some'] at hit'
  have hit2 : it = (match (t.filter (fun p => p.sku == e.1)).head? with
      | none => ({ sku := e.1, name := "(not in inventory)", qty := e.2, aisle := "" } : ViewItem)
      | some r => { sku := e.1, name := r.name, qty := e.2, aisle := r.aisle }) :=
    (Option.some.inj hit').symm
  cases hh : (t.filter (fun p => p.sku == e.1)).head? with
  | none =>
    rw [hh] at hit2
    rw [hit2]
    exact ⟨rfl, rfl, fun _ => ⟨rfl, rfl⟩, fun r hr => absurd hr (by simp)⟩
  | some r =>
    rw [hh] at hit2
    rw [hit2]
    refine ⟨rfl, rfl, ?_, ?_⟩
    · intro hnone
      have hfe : t.filter (fun p => p.sku == e.1) = [] :=
        List.filter_eq_nil_iff.mpr (fun p hp => by simpa using hnone p hp)
      rw [hfe] at hh
      exact absurd hh (by simp)
    · intro r' hr'
      have hrr : r = r' := Option.some.inj hr'
      rw [← hrr]
      exact ⟨rfl, rfl⟩

/-- C9 witness: the theorem applied to the concrete inventory and the
cart `{A1 ↦ 2, ZZ ↦ 1}`: the entry for the unknown sku `ZZ` renders as
the placeholder, and the total is 3. -/
theorem shopping_list_view_spec_witness :
    ((ViewItem.mk "ZZ" "(not in inventory)" 1 "").name = "(not in inventory)"
      ∧ (ViewItem.mk "ZZ" "(not in inventory)" 1 "").aisle = "")
    ∧ (shopping_list TInv [("A1", 2), ("ZZ", 1)]).2 = 3 := by
  have h := shopping_list_view_spec TInv [("A1", 2), ("ZZ", 1)]
  refine ⟨(h.2.2 1 ("ZZ", 1) (ViewItem.mk "ZZ" "(not in inventory)" 1 "")
    (by decide) (by decide)).2.2.1 (by decide), h.1.trans (by decide)⟩

/-- C8: `stock_label` always returns one of the two strings
`In stock` / `Out of stock`; it returns `In stock` exactly when the
value parses (`int`) to a positive integer; and the spec's four test
vectors evaluate as claimed. -/
theorem stock_label_in_or_out :
    (∀ v, (stock_label v = "In stock" ∨ stock_label v = "Out of stock")
      ∧ (stock_label v = "In stock" ↔ ∃ n, pyInt v = some n ∧ 0 < n))
    ∧ stock_label (.int 0) = "Out of stock"
    ∧ stock_label (.int (-5)) = "Out of stock"
    ∧ stock_label (.str "abc") = "Out of stock"
    ∧ stock_label (.int 3) = "In stock" := by
  refine ⟨fun v => ⟨?_, ?_, ?_⟩, by decide, by decide, by decide, by decide⟩
  · cases h : pyInt v with
    | none => exact Or.inr (stock_label_none h)
    | some n =>
      by_cases hn : n > 0
      · exact Or.inl (by rw [stock_label_some h, if_pos hn])
      · exact Or.inr (by rw [stock_label_some h, if_neg hn])
  · intro hlab
    cases h : pyInt v with
    | none => rw [stock_label_none h] at hlab; exact absurd hlab (by decide)
    | some n =>
      rw [stock_label_some h] at hlab
      by_cases hn : n > 0
      · exact ⟨n, rfl, hn⟩
      · rw [if_neg hn] at hlab; exact absurd hlab (by decide)
  · rintro ⟨n, hn, hpos⟩
    rw [stock_label_some hn, if_pos hpos]
